import Mathlib

/-!
Verification of the core client-side logic of the `portfolio` single-page
application.  The logic under study lives in the main application source
file: the scroll-spy hook `useScrollSpy`, the `CommandPalette` search
computation, and the theme-preference resolution and persistence effects
of `App`.  Each JavaScript fragment is shallowly embedded as an executable
Lean definition; DOM and platform facilities (element lookup, stored
preference, system color scheme) appear as explicit parameters.
-/

namespace Portfolio

/-! ### JavaScript string primitives

Models of `String.prototype.trim`, `String.prototype.toLowerCase` and
`String.prototype.includes`, written over the character-list view of
`String` so that they compute by kernel reduction. -/

/-- Model of JavaScript `trim` on a character list: drop whitespace from
both ends. -/
def trimChars (cs : List Char) : List Char :=
  ((cs.dropWhile Char.isWhitespace).reverse.dropWhile Char.isWhitespace).reverse

/-- Model of `String.prototype.trim`. -/
def jsTrim (s : String) : String := ⟨trimChars s.data⟩

/-- Model of `String.prototype.toLowerCase` (ASCII range, which covers all
labels and queries occurring in the application). -/
def jsToLower (s : String) : String := ⟨s.data.map Char.toLower⟩

/-- Whether the first list is an initial segment of the second. -/
def listStartsWith : List Char → List Char → Bool
  | [], _ => true
  | _ :: _, [] => false
  | a :: as, b :: bs => a == b && listStartsWith as bs

/-- Whether `needle` occurs as a contiguous run inside `hay`. -/
def listIncludes (needle : List Char) : List Char → Bool
  | [] => needle.isEmpty
  | c :: cs => listStartsWith needle (c :: cs) || listIncludes needle cs

/-- Model of `hay.includes(needle)` for JavaScript strings. -/
def jsIncludes (hay needle : String) : Bool :=
  listIncludes needle.data hay.data

/-! ### Scroll-spy (`useScrollSpy`, main application file lines 185-211)

The hook keeps a state `active : String`, initialised to
`sectionIds[0] || ""`.  On every scroll event (and once on mount) the
handler reads, for each configured id, the top edge of the matching DOM
element when one exists; it filters to the positions at or below the
offset threshold, sorts them by descending top and, when the winner has a
truthy id, stores that id.  The DOM is modelled by an environment
`env : String → Option Int` giving the current top offset of the element
with a given id, or `none` when no such element is rendered. -/

/-- Position record produced by the handler: a section id paired with the
current top offset of its element. -/
def positions (sectionIds : List String) (env : String → Option Int) :
    List (String × Int) :=
  sectionIds.filterMap fun id => (env id).map fun top => (id, top)

/-- The qualifying positions: those whose top edge is at or below the
offset threshold (`p.top <= offset`). -/
def qualifying (sectionIds : List String) (env : String → Option Int)
    (offset : Int) : List (String × Int) :=
  (positions sectionIds env).filter fun p => p.2 ≤ offset

/-- First element of the list after a stable sort by descending top:
the earliest element attaining the maximal top offset.  Mirrors
`positions.filter(..).sort((a, b) => b.top - a.top)[0]`. -/
def argmaxTop : List (String × Int) → Option (String × Int)
  | [] => none
  | p :: ps =>
    match argmaxTop ps with
    | none => some p
    | some q => if q.2 > p.2 then some q else some p

/-- The position selected by the handler, `current` in the source. -/
def selectCurrent (sectionIds : List String) (env : String → Option Int)
    (offset : Int) : Option (String × Int) :=
  argmaxTop (qualifying sectionIds env offset)

/-- One run of the scroll handler: `if (current?.id) setActive(current.id)`.
The state is replaced by the selected id when a position was selected and
its id is truthy (non-empty); otherwise it is left unchanged. -/
def scrollStep (sectionIds : List String) (env : String → Option Int)
    (offset : Int) (active : String) : String :=
  match selectCurrent sectionIds env offset with
  | some p => if p.1 = "" then active else p.1
  | none => active

/-- Initial scroll-spy state: `useState(sectionIds[0] || "")`. -/
def initActive (sectionIds : List String) : String :=
  match sectionIds with
  | [] => ""
  | id :: _ => if id = "" then "" else id

/-- The scroll-spy state after a sequence of scroll events, each observing
its own snapshot of element offsets, starting from the initial state. -/
def runScroll (sectionIds : List String) (offset : Int)
    (envs : List (String → Option Int)) : String :=
  envs.foldl (fun active env => scrollStep sectionIds env offset active)
    (initActive sectionIds)

/-! ### Command-palette search (`CommandPalette`, lines 435-461)

The `results` memo normalises the query (`q.trim().toLowerCase()`), maps
each section `{id, label}` to `{type: "section", id, label}` and each
project to `{type: "project", id, label: p.name}`, keeps a candidate when
the query is empty or the lowercased label contains the query, and
returns the concatenation (sections first) truncated to ten entries. -/

/-- Section record as configured in `App`: `{ id, label }`. -/
structure Sec where
  id : String
  label : String
  deriving DecidableEq, Repr

/-- Project record as used by the palette: `{ id, name, ... }` with only
the fields the search reads. -/
structure Proj where
  id : String
  name : String
  deriving DecidableEq, Repr

/-- Result item produced by the palette: `{ type, id, label }`. -/
structure RItem where
  rtype : String
  id : String
  label : String
  deriving DecidableEq, Repr

/-- The candidate filter: `query ? x.label.toLowerCase().includes(query) : true`,
with `query` already normalised. -/
def candMatches (query : String) (label : String) : Bool :=
  if query = "" then true else jsIncludes (jsToLower label) query

/-- The matching section candidates, in input order. -/
def matchedSections (query : String) (sections : List Sec) : List RItem :=
  (sections.map fun s => RItem.mk "section" s.id s.label).filter
    fun x => candMatches query x.label

/-- The matching project candidates, in input order. -/
def matchedProjects (query : String) (projects : List Proj) : List RItem :=
  (projects.map fun p => RItem.mk "project" p.id p.name).filter
    fun x => candMatches query x.label

/-- The `results` computation of `CommandPalette`:
`[...sec, ...proj].slice(0, 10)` over the normalised query. -/
def searchResults (q : String) (sections : List Sec) (projects : List Proj) :
    List RItem :=
  let query := jsToLower (jsTrim q)
  (matchedSections query sections ++ matchedProjects query projects).take 10

/-! ### Command-palette overlay lifecycle (lines 450-463, 576-586)

The palette component always stays mounted; `open` is the `paletteOpen`
flag of `App` and `q` the query state.  The effect
`useEffect(() => { if (!open) setQ("") }, [open])` clears the query
whenever the overlay is (or becomes) closed, and the input that writes the
query is only rendered while the overlay is open (`if (!open) return null`).
The lifecycle is modelled as a transition system over these two fields. -/

/-- Observable state of the overlay: the open flag and the query text. -/
structure PaletteState where
  isOpen : Bool
  q : String
  deriving DecidableEq, Repr

/-- Events driving the overlay: opening (shortcut or button), closing
(escape, backdrop, explicit close, or selection), and typing in the
query input. -/
inductive PaletteEvent where
  | evOpen
  | evClose
  | evType (s : String)
  deriving DecidableEq, Repr

/-- One event of the overlay.  Closing re-renders with `open = false`, so
the reset effect fires and clears the query; typing reaches `setQ` only
while the input is rendered, i.e. while the overlay is open. -/
def paletteStep (st : PaletteState) : PaletteEvent → PaletteState
  | .evOpen => { st with isOpen := true }
  | .evClose => { isOpen := false, q := "" }
  | .evType s => if st.isOpen then { st with q := s } else st

/-- Initial overlay state: `useState(false)` for the flag, `useState("")`
for the query, after the mount-time run of the reset effect. -/
def paletteInit : PaletteState := { isOpen := false, q := "" }

/-- The overlay state after a sequence of events from the initial state. -/
def runPalette (evs : List PaletteEvent) : PaletteState :=
  evs.foldl paletteStep paletteInit

/-! ### Theme preference (`App`, lines 563-574)

On mount: `stored = localStorage.getItem("theme")`;
`initial = stored ? stored === "dark" : matchMedia?.("(prefers-color-scheme: dark)")?.matches`;
`setDark(!!initial)`.  A second effect, re-run whenever `dark` changes
(including after the mount-time resolution), writes
`localStorage.setItem("theme", dark ? "dark" : "light")`.  The stored slot
is modelled as `Option String` (a `getItem` miss is `none`) and the system
preference as `Option Bool` (`none` when `matchMedia` or `matches` is
unavailable). -/

/-- The string written to the durable slot for a theme value. -/
def themeName (dark : Bool) : String := if dark then "dark" else "light"

/-- Mount-time resolution of the `dark` flag.  An empty stored string is
falsy in JavaScript and falls through to the system preference, and a
missing system preference yields `!!undefined = false` (light). -/
def initialDark (stored : Option String) (system : Option Bool) : Bool :=
  match stored with
  | some s => if s = "" then system.getD false else s = "dark"
  | none => system.getD false

/-- Theme state: the `dark` flag together with the durable slot. -/
structure ThemeState where
  dark : Bool
  storage : Option String
  deriving DecidableEq, Repr

/-- The persist effect keyed on `dark`: writes the current theme name to
the durable slot. -/
def persistEffect (st : ThemeState) : ThemeState :=
  { st with storage := some (themeName st.dark) }

/-- Application startup: resolve `dark` from the slot and the system
preference, then run the persist effect (it fires on mount). -/
def themeStartup (storage : Option String) (system : Option Bool) :
    ThemeState :=
  persistEffect { dark := initialDark storage system, storage := storage }

/-- Explicit user toggle: `setDark(!dark)` followed by the persist
effect re-running on the changed value. -/
def toggleDark (st : ThemeState) : ThemeState :=
  persistEffect { st with dark := !st.dark }

/-! ### Concrete instances used to exercise the definitions -/

/-- Offsets of the worked example of the specification: `about` at `-50`,
`skills` at `30`, every other id unrendered. -/
def exEnv : String → Option Int := fun id =>
  if id = "about" then some (-50) else if id = "skills" then some 30 else none

/-- A snapshot taken at the very top of the page: every rendered section
still lies well below the activation line. -/
def topOfPageEnv : String → Option Int := fun id =>
  if id = "top" then some 200 else if id = "about" then some 500 else none

/-- Eight section candidates, all matching the empty query. -/
def secs15 : List Sec :=
  [⟨"top", "Home"⟩, ⟨"about", "About"⟩, ⟨"skills", "Skills"⟩,
   ⟨"projects", "Projects"⟩, ⟨"experience", "Experience"⟩,
   ⟨"resume", "Resume"⟩, ⟨"timeline", "Timeline"⟩, ⟨"contact", "Contact"⟩]

/-- Seven project candidates, all matching the empty query; together with
`secs15` they give fifteen matching candidates. -/
def projs15 : List Proj :=
  [⟨"p1", "Alpha"⟩, ⟨"p2", "Beta"⟩, ⟨"p3", "Gamma"⟩, ⟨"p4", "Delta"⟩,
   ⟨"p5", "Epsilon"⟩, ⟨"p6", "Zeta"⟩, ⟨"p7", "Eta"⟩]

/-! ### Helper lemmas -/

/-- On a non-empty list `argmaxTop` always selects a position. -/
theorem argmaxTop_cons_isSome (a : String × Int) (as : List (String × Int)) :
    (argmaxTop (a :: as)).isSome := by
  cases has : argmaxTop as with
  | none => simp [argmaxTop, has]
  | some b =>
    simp only [argmaxTop, has]
    split <;> simp

/-- The position returned by `argmaxTop` is an element of the list. -/
theorem argmaxTop_mem : ∀ {l : List (String × Int)} {p : String × Int},
    argmaxTop l = some p → p ∈ l := by
  intro l
  induction l with
  | nil => intro p h; simp [argmaxTop] at h
  | cons a as ih =>
    intro p h
    simp only [argmaxTop] at h
    split at h
    · simp only [Option.some.injEq] at h
      subst h
      exact List.mem_cons_self a as
    · rename_i b hb
      split at h <;> simp only [Option.some.injEq] at h <;> subst h
      · exact List.mem_cons_of_mem _ (ih hb)
      · exact List.mem_cons_self a as

/-- The position returned by `argmaxTop` has the largest top offset. -/
theorem argmaxTop_le : ∀ {l : List (String × Int)} {p : String × Int},
    argmaxTop l = some p → ∀ q ∈ l, q.2 ≤ p.2 := by
  intro l
  induction l with
  | nil => intro p h; simp [argmaxTop] at h
  | cons a as ih =>
    intro p h r hr
    simp only [argmaxTop] at h
    split at h
    · rename_i hnone
      simp only [Option.some.injEq] at h
      subst h
      rcases List.mem_cons.mp hr with hra | hras
      · exact le_of_eq (congrArg Prod.snd hra)
      · exfalso
        cases as with
        | nil => simp at hras
        | cons c cs =>
          have hsome := argmaxTop_cons_isSome c cs
          rw [hnone] at hsome
          simp at hsome
    · rename_i b hb
      have hbas := ih hb
      split at h <;> rename_i hcmp <;> simp only [Option.some.injEq] at h <;>
        subst h
      · rcases List.mem_cons.mp hr with hra | hras
        · subst hra; omega
        · exact hbas r hras
      · rcases List.mem_cons.mp hr with hra | hras
        · subst hra; exact le_rfl
        · have := hbas r hras; omega

/-- Every id occurring in `positions` comes from the configured list. -/
theorem positions_fst_mem {ids : List String} {env : String → Option Int}
    {p : String × Int} (h : p ∈ positions ids env) : p.1 ∈ ids := by
  simp only [positions, List.mem_filterMap] at h
  rcases h with ⟨id, hid, hmap⟩
  rcases Option.map_eq_some.mp hmap with ⟨t, _, ht⟩
  rw [← ht]
  exact hid

/-- A single scroll recomputation keeps the active id inside the
configured list. -/
theorem scrollStep_mem {ids : List String} {env : String → Option Int}
    {offset : Int} {active : String} (h : active ∈ ids) :
    scrollStep ids env offset active ∈ ids := by
  unfold scrollStep
  cases hsel : selectCurrent ids env offset with
  | none => exact h
  | some p =>
    by_cases hp : p.1 = ""
    · simp [hp, h]
    · simp only [hp, if_neg hp]
      have hmem : p ∈ qualifying ids env offset := argmaxTop_mem hsel
      have hpos : p ∈ positions ids env := List.mem_of_mem_filter hmem
      exact positions_fst_mem hpos

/-- With a non-empty configuration the initial active id is the first
configured id. -/
theorem initActive_head {ids : List String} (h : ids ≠ []) :
    initActive ids = ids.head h := by
  cases ids with
  | nil => exact absurd rfl h
  | cons a as =>
    by_cases ha : a = "" <;> simp [initActive, ha]

/-- On the empty configuration the scroll handler never updates. -/
theorem scrollStep_nil (env : String → Option Int) (offset : Int)
    (active : String) : scrollStep [] env offset active = active := by
  simp [scrollStep, selectCurrent, qualifying, positions, argmaxTop,
    List.filterMap]

/-- Membership in the configured list is preserved by any sequence of
scroll recomputations. -/
theorem foldl_scrollStep_mem (ids : List String) (offset : Int) :
    ∀ (envs : List (String → Option Int)) (active : String), active ∈ ids →
      envs.foldl (fun a env => scrollStep ids env offset a) active ∈ ids := by
  intro envs
  induction envs with
  | nil => intro a h; exact h
  | cons e es ih =>
    intro a h
    exact ih _ (scrollStep_mem h)

/-- On the empty configuration any sequence of scroll recomputations is the
identity on the state. -/
theorem foldl_scrollStep_nil (offset : Int) :
    ∀ (envs : List (String → Option Int)) (a : String),
      envs.foldl (fun acc env => scrollStep [] env offset acc) a = a := by
  intro envs
  induction envs with
  | nil => intro a; rfl
  | cons e es ih =>
    intro a
    simp only [List.foldl_cons, scrollStep_nil]
    exact ih a

/-- The empty needle occurs in every character list. -/
theorem listIncludes_nil_needle : ∀ hs : List Char, listIncludes [] hs = true := by
  intro hs
  cases hs <;> simp [listIncludes, listStartsWith, List.isEmpty]

/-- The empty string is a substring of every string. -/
theorem jsIncludes_empty_needle (s : String) : jsIncludes s "" = true := by
  have h : ("" : String).data = [] := rfl
  simp [jsIncludes, h, listIncludes_nil_needle]

/-- Every candidate passes the filter when the normalised query is empty. -/
theorem candMatches_empty (label : String) : candMatches "" label = true := by
  simp [candMatches]

/-- The candidate filter agrees with substring containment of the
normalised query in the lowercased label, for every query. -/
theorem candMatches_eq_includes (query label : String) :
    candMatches query label = jsIncludes (jsToLower label) query := by
  by_cases h : query = ""
  · subst h
    simp [candMatches, jsIncludes_empty_needle]
  · simp [candMatches, h]

/-- With the empty query no section candidate is filtered out. -/
theorem matchedSections_empty (sections : List Sec) :
    matchedSections "" sections =
      sections.map fun s => RItem.mk "section" s.id s.label := by
  simp [matchedSections, candMatches_empty]

/-- With the empty query no project candidate is filtered out. -/
theorem matchedProjects_empty (projects : List Proj) :
    matchedProjects "" projects =
      projects.map fun p => RItem.mk "project" p.id p.name := by
  simp [matchedProjects, candMatches_empty]

/-- The query state of a closed overlay is always empty: the reset effect
clears it on every close and typing is only possible while open. -/
theorem palette_closed_q_empty :
    ∀ (evs : List PaletteEvent) (st : PaletteState),
      (st.isOpen = false → st.q = "") →
      (evs.foldl paletteStep st).isOpen = false →
      (evs.foldl paletteStep st).q = "" := by
  intro evs
  induction evs with
  | nil => intro st h; exact h
  | cons e es ih =>
    intro st h
    apply ih
    cases e with
    | evOpen =>
      intro hopen
      simp [paletteStep] at hopen
    | evClose =>
      intro _
      rfl
    | evType s =>
      by_cases hst : st.isOpen = true
      · simp [paletteStep, hst]
      · simp only [paletteStep, Bool.not_eq_true] at hst
        simp [paletteStep, hst, h hst]

/-! ### Claims -/

/-- C1: For every configured list of section identifiers and every
assignment of top-edge offsets to the sections that have a renderable
region, the tracker restricts to the sections whose top-edge value is at
or below the threshold offset and selects as active the one with the
largest top-edge value; in particular, with sections `about` and `skills`
at offsets `-50` and `30` and threshold `120`, the id `skills` is
selected. -/
theorem scrollspy_selects_largest_qualifying
    (ids : List String) (env : String → Option Int) (offset : Int)
    (active : String) (p : String × Int)
    (hp : selectCurrent ids env offset = some p) :
    (p ∈ qualifying ids env offset ∧
      ∀ q ∈ qualifying ids env offset, q.2 ≤ p.2) ∧
    (p.1 ≠ "" → scrollStep ids env offset active = p.1) ∧
    scrollStep ["about", "skills"] exEnv 120 active = "skills" := by
  refine ⟨⟨argmaxTop_mem hp, argmaxTop_le hp⟩, ?_, ?_⟩
  · intro hne
    simp [scrollStep, hp, hne]
  · have hsel : selectCurrent ["about", "skills"] exEnv 120 =
        some ("skills", 30) := by decide
    simp [scrollStep, hsel]

/-- C1 witness: the worked example of the specification, instantiating the
general selection theorem at the concrete environment. -/
theorem scrollspy_selects_largest_qualifying_witness :
    ("skills", (30 : Int)) ∈ qualifying ["about", "skills"] exEnv 120 ∧
    scrollStep ["about", "skills"] exEnv 120 "top" = "skills" := by
  have h := scrollspy_selects_largest_qualifying ["about", "skills"] exEnv 120
    "top" ("skills", 30) (by decide)
  exact ⟨h.1.1, h.2.2⟩

/-- C2 counterexample: with the empty configured list the tracker holds the
empty string, which is not a member of the (empty) configured list, so the
membership invariant fails as stated for every configured list. -/
theorem active_membership_fails_on_empty_config :
    runScroll [] 120 [exEnv] = "" ∧
    runScroll [] 120 [exEnv] ∉ ([] : List String) := by
  constructor
  · decide
  · simp

/-- C2 (amended): for every non-empty configured section list and every
sequence of scroll recomputations, with arbitrary per-section top offsets
including missing regions, the active id held by the tracker is a member
of the configured list. -/
theorem active_membership_invariant (ids : List String) (h : ids ≠ [])
    (offset : Int) (envs : List (String → Option Int)) :
    runScroll ids offset envs ∈ ids := by
  unfold runScroll
  apply foldl_scrollStep_mem
  rw [initActive_head h]
  exact List.head_mem h

/-- C2 witness: the membership invariant at a concrete configuration and
scroll history. -/
theorem active_membership_invariant_witness :
    runScroll ["top", "about"] 140 [exEnv] ∈ ["top", "about"] :=
  active_membership_invariant ["top", "about"] (by decide) 140 [exEnv]

/-- C3: with the empty query every candidate from both lists is treated as
a match, all sections precede all projects, input order is preserved in
each group, and with two sections and one project all three are
returned. -/
theorem empty_query_search (sections : List Sec) (projects : List Proj) :
    matchedSections (jsToLower (jsTrim "")) sections =
      (sections.map fun s => RItem.mk "section" s.id s.label) ∧
    matchedProjects (jsToLower (jsTrim "")) projects =
      (projects.map fun p => RItem.mk "project" p.id p.name) ∧
    searchResults "" sections projects =
      ((sections.map fun s => RItem.mk "section" s.id s.label) ++
        projects.map fun p => RItem.mk "project" p.id p.name).take 10 ∧
    ∀ (s₁ s₂ : Sec) (p₁ : Proj),
      searchResults "" [s₁, s₂] [p₁] =
        [RItem.mk "section" s₁.id s₁.label,
         RItem.mk "section" s₂.id s₂.label,
         RItem.mk "project" p₁.id p₁.name] := by
  have hnorm : jsToLower (jsTrim "") = "" := rfl
  refine ⟨by rw [hnorm]; exact matchedSections_empty sections,
    by rw [hnorm]; exact matchedProjects_empty projects, ?_, ?_⟩
  · show (matchedSections (jsToLower (jsTrim "")) sections ++
      matchedProjects (jsToLower (jsTrim "")) projects).take 10 = _
    rw [hnorm, matchedSections_empty, matchedProjects_empty]
  · intro s₁ s₂ p₁
    show (matchedSections (jsToLower (jsTrim "")) [s₁, s₂] ++
      matchedProjects (jsToLower (jsTrim "")) [p₁]).take 10 = _
    rw [hnorm, matchedSections_empty, matchedProjects_empty]
    rfl

/-- C4: for every query and candidate lists the result list has at most
ten entries; when more than ten candidates match, exactly ten are
returned; and the result is a prefix of the matched sections followed by
the matched projects, so group ordering and input order are preserved. -/
theorem search_truncation (q : String) (sections : List Sec)
    (projects : List Proj) :
    (searchResults q sections projects).length ≤ 10 ∧
    (10 < (matchedSections (jsToLower (jsTrim q)) sections ++
        matchedProjects (jsToLower (jsTrim q)) projects).length →
      (searchResults q sections projects).length = 10) ∧
    searchResults q sections projects <+:
      matchedSections (jsToLower (jsTrim q)) sections ++
        matchedProjects (jsToLower (jsTrim q)) projects := by
  refine ⟨?_, ?_, ?_⟩
  · show ((matchedSections (jsToLower (jsTrim q)) sections ++
      matchedProjects (jsToLower (jsTrim q)) projects).take 10).length ≤ 10
    rw [List.length_take]
    exact Nat.min_le_left _ _
  · intro hlen
    show ((matchedSections (jsToLower (jsTrim q)) sections ++
      matchedProjects (jsToLower (jsTrim q)) projects).take 10).length = 10
    rw [List.length_take]
    omega
  · exact List.take_prefix _ _

/-- C4 witness: fifteen matching candidates produce exactly ten results. -/
theorem search_truncation_witness :
    (searchResults "" secs15 projs15).length = 10 :=
  (search_truncation "" secs15 projs15).2.1 (by decide)

/-- C5: the query is trimmed and lowercased, a candidate matches exactly
when its lowercased label contains the normalised query as a substring,
and the query `PORT` against the project `Interactive Portfolio Website`
and the section `Home` returns only the project. -/
theorem search_normalization :
    (∀ (q : String) (label : String),
      candMatches (jsToLower (jsTrim q)) label =
        jsIncludes (jsToLower label) (jsToLower (jsTrim q))) ∧
    searchResults "PORT" [Sec.mk "top" "Home"]
        [Proj.mk "p1" "Interactive Portfolio Website"] =
      [RItem.mk "project" "p1" "Interactive Portfolio Website"] :=
  ⟨fun _ label => candMatches_eq_includes _ label, by decide⟩

/-- C6: the tracker state is initialised to the first configured section,
and a recomputation in which no section qualifies leaves the state
unchanged, so at initial load the active section is the first configured
section. -/
theorem scrollspy_default_no_qualify (ids : List String) (h : ids ≠ [])
    (env : String → Option Int) (offset : Int) (active : String)
    (hnq : qualifying ids env offset = []) :
    initActive ids = ids.head h ∧
    scrollStep ids env offset active = active ∧
    scrollStep ids env offset (initActive ids) = initActive ids := by
  have hstep : ∀ a, scrollStep ids env offset a = a := by
    intro a
    simp [scrollStep, selectCurrent, hnq, argmaxTop]
  exact ⟨initActive_head h, hstep active, hstep _⟩

/-- C6 witness: at the top of the page, with every rendered section below
the threshold, the active section is the first configured one and a
recomputation does not change it. -/
theorem scrollspy_default_no_qualify_witness :
    initActive ["top", "about"] = "top" ∧
    scrollStep ["top", "about"] topOfPageEnv 140 "top" = "top" := by
  have h := scrollspy_default_no_qualify ["top", "about"] (by decide)
    topOfPageEnv 140 "top" (by decide)
  exact ⟨h.1, h.2.1⟩

/-- C8: a configured section identifier with no renderable region is
silently skipped: the handler computes the same positions and the same
new state as if the identifier were absent from the configuration. -/
theorem missing_region_skipped (ids₁ : List String) (id₀ : String)
    (ids₂ : List String) (env : String → Option Int) (h : env id₀ = none)
    (offset : Int) (active : String) :
    positions (ids₁ ++ id₀ :: ids₂) env = positions (ids₁ ++ ids₂) env ∧
    scrollStep (ids₁ ++ id₀ :: ids₂) env offset active =
      scrollStep (ids₁ ++ ids₂) env offset active := by
  have hpos : positions (ids₁ ++ id₀ :: ids₂) env =
      positions (ids₁ ++ ids₂) env := by
    simp [positions, List.filterMap_append, List.filterMap_cons, h]
  exact ⟨hpos, by simp [scrollStep, selectCurrent, qualifying, hpos]⟩

/-- C8 witness: a ghost id with no rendered element does not change the
outcome of a recomputation. -/
theorem missing_region_skipped_witness :
    scrollStep ["top", "ghost", "about"] exEnv 140 "top" =
      scrollStep ["top", "about"] exEnv 140 "top" :=
  (missing_region_skipped ["top"] "ghost" ["about"] exEnv (by decide) 140
    "top").2

/-- C9: in every reachable overlay state that is closed the query text is
empty, so on every transition from closed to open the query is the empty
string: it is never persisted across opens. -/
theorem palette_query_reset_on_open :
    (∀ evs : List PaletteEvent,
      (runPalette evs).isOpen = false → (runPalette evs).q = "") ∧
    (∀ evs : List PaletteEvent, (runPalette evs).isOpen = false →
      (paletteStep (runPalette evs) PaletteEvent.evOpen).q = "" ∧
      (paletteStep (runPalette evs) PaletteEvent.evOpen).isOpen = true) := by
  have hinv : ∀ evs : List PaletteEvent,
      (runPalette evs).isOpen = false → (runPalette evs).q = "" :=
    fun evs => palette_closed_q_empty evs paletteInit (fun _ => rfl)
  refine ⟨hinv, fun evs hclosed => ⟨?_, rfl⟩⟩
  show (runPalette evs).q = ""
  exact hinv evs hclosed

/-- C9 witness: after typing while open and closing, reopening finds the
empty query. -/
theorem palette_query_reset_on_open_witness :
    (paletteStep (runPalette [PaletteEvent.evOpen, PaletteEvent.evType "abc",
      PaletteEvent.evClose]) PaletteEvent.evOpen).q = "" :=
  (palette_query_reset_on_open.2 [PaletteEvent.evOpen,
    PaletteEvent.evType "abc", PaletteEvent.evClose] (by decide)).1

/-- C10: with an empty configured list the tracker initialises the active
identifier to the empty string and every scroll recomputation leaves it
unchanged, so the active identifier is never a member of the (empty)
configured list: the membership invariant requires a non-empty
configuration. -/
theorem empty_config_scrollspy (offset : Int)
    (envs : List (String → Option Int)) :
    initActive [] = "" ∧
    runScroll [] offset envs = "" ∧
    runScroll [] offset envs ∉ ([] : List String) := by
  refine ⟨rfl, ?_, by simp⟩
  show envs.foldl (fun active env => scrollStep [] env offset active)
    (initActive []) = ""
  exact foldl_scrollStep_nil offset envs (initActive [])

/-- C7: a stored theme preference determines the startup theme regardless
of the system preference; with no stored preference the system preference
is used; with neither, the theme defaults to light; and a toggle persists
the new value so that a reload reads it back without consulting the
system preference. -/
theorem theme_resolution_and_persistence :
    (∀ (d : Bool) (system : Option Bool),
      (themeStartup (some (themeName d)) system).dark = d) ∧
    (∀ b : Bool, (themeStartup none (some b)).dark = b) ∧
    (themeStartup none none).dark = false ∧
    (∀ (st : ThemeState) (system : Option Bool),
      (toggleDark st).dark = !st.dark ∧
      (toggleDark st).storage = some (themeName (!st.dark)) ∧
      (themeStartup (toggleDark st).storage system).dark = !st.dark) := by
  refine ⟨?_, fun b => rfl, rfl, ?_⟩
  · intro d system
    cases d <;> rcases system with _ | b <;> first | decide | (cases b <;> decide)
  · rintro ⟨d, storage⟩ system
    refine ⟨rfl, rfl, ?_⟩
    show (themeStartup (some (themeName (!d))) system).dark = !d
    cases d <;> rcases system with _ | b <;>
      first
        | decide
        | (cases b <;> decide)

end Portfolio
